import Mathlib

/-!
Shallow embedding of the multi-agent orchestrator pipeline
(src/agents/researchAgent.js, src/agents/analysisAgent.js,
src/agents/taskAgent.js, src/agents/coordinator.js).

Strings are modelled as `List Char`.  JavaScript string methods are
modelled at ASCII fidelity: `toLowerCase`/`toUpperCase` act on the basic
latin letters (as `Char.toLower`/`Char.toUpper` do), `\s` is the JS
whitespace class, `\w` is `[A-Za-z0-9_]`.  The outbound axios call in
`fetchWikiSummary` is the external-service boundary: its four possible
outcomes (resolved response / HTTP error / no response / other failure)
are reified in `AxiosOutcome` and the function is modelled as a total
function of that outcome, which is how "never throws" is expressed.
-/

/-- JS whitespace class `\s` (also the set stripped by `String.prototype.trim`). -/
def jsWs (c : Char) : Bool :=
  let n := c.toNat
  n == 9 || n == 10 || n == 11 || n == 12 || n == 13 || n == 32 ||
  n == 160 || n == 5760 || (8192 ≤ n && n ≤ 8202) ||
  n == 8232 || n == 8233 || n == 8239 || n == 8287 || n == 12288 || n == 65279

/-- JS line terminators, the characters `.` does not match. -/
def lineTerm (c : Char) : Bool :=
  let n := c.toNat
  n == 10 || n == 13 || n == 8232 || n == 8233

/-- JS word-character class `\w`, i.e. `[A-Za-z0-9_]`. -/
def wordChar (c : Char) : Bool :=
  c.isAlpha || c.isDigit || c == '_'

/-- `String.prototype.trim`: strip JS whitespace from both ends. -/
def trim (s : List Char) : List Char :=
  ((s.dropWhile jsWs).reverse.dropWhile jsWs).reverse

/-- `String.prototype.toLowerCase` (ASCII fidelity). -/
def toLowerStr (s : List Char) : List Char :=
  s.map Char.toLower

/-- Accumulator worker for `words`: splits on runs of JS whitespace,
dropping empty fragments.  `acc` holds the current in-progress word,
reversed. -/
def wordsAux : List Char → List Char → List (List Char)
  | [], acc => if acc.isEmpty then [] else [acc.reverse]
  | c :: cs, acc =>
    if jsWs c then
      if acc.isEmpty then wordsAux cs [] else acc.reverse :: wordsAux cs []
    else wordsAux cs (c :: acc)

/-- `s.split(/\s+/).filter(Boolean)`: the maximal whitespace-free runs of `s`. -/
def words (s : List Char) : List (List Char) :=
  wordsAux s []

/-- `Array.prototype.join(sep)` for a one-character separator. -/
def joinSep (sep : Char) : List (List Char) → List Char
  | [] => []
  | [w] => w
  | w :: ws => w ++ sep :: joinSep sep ws

/-- `Array.prototype.slice(-n)`: the last `n` elements (all of them if fewer). -/
def lastN (n : Nat) (l : List α) : List α :=
  l.drop (l.length - n)

/-- `phrase.replace(/[?]/g, '')`. -/
def removeQ (s : List Char) : List Char :=
  s.filter (fun c => c != '?')

/-- `lower.replace(/[^\w\s]/g, '')`: keep only word and whitespace characters. -/
def stripPunct (s : List Char) : List Char :=
  s.filter (fun c => wordChar c || jsWs c)

/-- `word.charAt(0).toUpperCase() + word.slice(1)` (`""` stays `""`). -/
def capitalize : List Char → List Char
  | [] => []
  | c :: cs => c.toUpper :: cs

/-- Boolean prefix test used to model anchored regex literals. -/
def hasPrefixList : List Char → List Char → Bool
  | [], _ => true
  | _ :: _, [] => false
  | p :: ps, c :: cs => p == c && hasPrefixList ps cs

/-- `String.prototype.includes`: contiguous-substring test. -/
def includes : List Char → List Char → Bool
  | [], pat => pat.isEmpty
  | c :: cs, pat => hasPrefixList pat (c :: cs) || includes cs pat

/-- The `FILLER_WORDS` set of researchAgent.js. -/
def FILLER_WORDS : List (List Char) :=
  (["explain", "what", "is", "are", "for", "a", "an", "the", "of", "in", "to",
    "how", "do", "i", "get", "started", "beginners", "learn", "compare", "vs",
    "overview", "tell", "me", "about", "please"]).map String.data

/-- The `PRICE_WORDS` set of researchAgent.js. -/
def PRICE_WORDS : List (List Char) :=
  (["cost", "price", "new", "average", "car", "buy"]).map String.data

/-- `normalizeTitle` from researchAgent.js: trim, remove `?`, split on
whitespace, title-case each word, join with `_`. -/
def normalizeTitle (phrase : List Char) : List Char :=
  joinSep '_' ((words (removeQ (trim phrase))).map capitalize)

/-- Case-insensitive literal-prefix matcher: consumes `pat` (given in
lower case) from the front of `s` and returns the remainder.  Models an
anchored regex alternative under the `i` flag (ASCII fidelity). -/
def stripCiPrefix : List Char → List Char → Option (List Char)
  | [], s => some s
  | _ :: _, [] => none
  | p :: ps, c :: cs => if c.toLower == p then stripCiPrefix ps cs else none

/-- First alternative of a regex alternation that matches as a prefix.
The alternatives used below are pairwise non-prefixing, so at most one
can match and trying them in order is faithful to regex backtracking. -/
def tryWords : List (List Char) → List Char → Option (List Char)
  | [], _ => none
  | w :: ws, s =>
    match stripCiPrefix w s with
    | some r => some r
    | none => tryWords ws s

/-- Greedy match of a trailing `\s+(.+)$` against `s`, returning the `.+`
capture.  The maximal whitespace run is taken; if nothing follows it, the
regex backtracks and `.+` captures the final whitespace character (which
must not be a line terminator, since `.` does not match those); if the
remainder contains a line terminator no split can satisfy `(.+)$`. -/
def matchTail (s : List Char) : Option (List Char) :=
  let ws := s.takeWhile jsWs
  let tail := s.dropWhile jsWs
  if ws.isEmpty then none
  else if tail.isEmpty then
    match ws.reverse with
    | [] => none
    | [_] => none
    | c :: _ => if lineTerm c then none else some [c]
  else if tail.any lineTerm then none else some tail

/-- Question words of the first extraction pattern, in alternation order. -/
def qWords : List (List Char) :=
  (["who", "what", "where", "when", "why", "how"]).map String.data

/-- Verbs of the first extraction pattern, in alternation order. -/
def vWords : List (List Char) :=
  (["is", "was", "are", "were"]).map String.data

/-- `/^(who|what|where|when|why|how)\s+(is|was|are|were)\s+(.+)$/i` applied
to the trimmed query; returns the third capture (the subject). -/
def pattern1 (s : List Char) : Option (List Char) :=
  match tryWords qWords s with
  | none => none
  | some r1 =>
    if (r1.takeWhile jsWs).isEmpty then none
    else
      match tryWords vWords (r1.dropWhile jsWs) with
      | none => none
      | some r2 => matchTail r2

/-- `/^(tell me about)\s+(.+)$/i`; returns the second capture. -/
def pattern2 (s : List Char) : Option (List Char) :=
  match stripCiPrefix (("tell me about").data) s with
  | none => none
  | some r => matchTail r

/-- `/^(give me an overview of)\s+(.+)$/i`; returns the second capture. -/
def pattern3 (s : List Char) : Option (List Char) :=
  match stripCiPrefix (("give me an overview of").data) s with
  | none => none
  | some r => matchTail r

/-- The normalized key computed from a captured `rawTopic` inside the
pattern `for`-loop of `extractTopic`: strip `?`, trim, tokenize in lower
case, drop filler and price words, keep the last two remaining tokens,
normalize. -/
def patKey (raw : List Char) : List Char :=
  let phrase := trim (removeQ raw)
  let tokens := words (toLowerStr phrase)
  let keyTokens :=
    tokens.filter (fun t => !(FILLER_WORDS.contains t) && !(PRICE_WORDS.contains t))
  let phrase2 := if keyTokens.isEmpty then phrase else joinSep ' ' (lastN 2 keyTokens)
  normalizeTitle phrase2

/-- Body of the pattern `for`-loop in `extractTopic`, given the captured
`rawTopic` (`if (rawTopic)` is the emptiness test): succeed only when
the normalized key has at least 3 characters. -/
def patResult (raw : List Char) : Option (List Char) :=
  if raw.isEmpty then none
  else if 3 ≤ (patKey raw).length then some (patKey raw) else none

/-- The pattern loop of `extractTopic`: try the three patterns in order;
a pattern that matches but yields a too-short key does not stop the loop. -/
def patternPhase (s : List Char) : Option (List Char) :=
  match (pattern1 s).bind patResult with
  | some r => some r
  | none =>
    match (pattern2 s).bind patResult with
    | some r => some r
    | none => (pattern3 s).bind patResult

/-- The candidate token list of the keyword fallback of `extractTopic`:
tokenize the whole lowercased query with punctuation stripped, drop
filler words, then price words (falling back to the filler-filtered list
if nothing survives), and keep the last two tokens if at least two remain. -/
def kwCandidate (lower : List Char) : List (List Char) :=
  let ws0 := (words (stripPunct lower)).filter (fun w => !(FILLER_WORDS.contains w))
  let filtered := ws0.filter (fun w => !(PRICE_WORDS.contains w))
  let c0 := if filtered.isEmpty then ws0 else filtered
  if 2 ≤ c0.length then lastN 2 c0 else c0

/-- Steps 2–3 of `extractTopic` (keyword extraction and final fallback):
normalize the joined candidate if it is long enough, otherwise normalize
the original unmodified query. -/
def keywordPhase (lower orig : List Char) : List Char :=
  let c1 := kwCandidate lower
  if 3 ≤ (joinSep '_' c1).length then normalizeTitle (joinSep ' ' c1)
  else normalizeTitle orig

/-- `extractTopic` from researchAgent.js. -/
def extractTopic (query : List Char) : List Char :=
  if query.isEmpty then []
  else
    let trimmed := trim query
    if trimmed.isEmpty then []
    else
      match patternPhase trimmed with
      | some r => r
      | none => keywordPhase (toLowerStr trimmed) query

/-- The structured research result (`FetchResult` of the spec).  The
passive `source`/`raw` metadata fields of researchAgent.js are omitted;
`triedTopics`/`errorSummary` are read (and found absent, hence falsy) by
taskAgent.js, so they are modelled as never set. -/
structure FetchResult where
  topic : List Char
  ok : Bool
  summary : Option (List Char)
  url : Option (List Char)
  error : Option (List Char)
deriving DecidableEq

/-- Wikipedia REST summary response body, per the interface contract: a
title, an extract, an optional canonical desktop page URL, a page id. -/
structure WikiData where
  title : List Char
  extract : List Char
  contentUrls : Option (List Char)
  pageid : Nat
deriving DecidableEq

/-- The four outcomes of the outbound axios call in `fetchWikiSummary`:
a resolved response, a rejection carrying an HTTP response status
(`error.response`), a rejection with no response (`error.request`), and
any other exception. -/
inductive AxiosOutcome where
  | success (data : WikiData)
  | httpError (status : Nat)
  | noResponse
  | otherFailure
deriving DecidableEq

/-- Fallback article URL used when the response has no `content_urls`. -/
def wikiUrlFor (topic : List Char) : List Char :=
  ("https://en.wikipedia.org/wiki/").data ++ topic

/-- `fetchWikiSummary` from researchAgent.js, as a total function of the
axios outcome: every failure is converted into the `ok = false` shape. -/
def fetchWikiSummary (topic : List Char) : AxiosOutcome → FetchResult
  | .success data =>
    ⟨data.title, true, some data.extract,
      some (match data.contentUrls with | some u => u | none => wikiUrlFor topic), none⟩
  | .httpError status =>
    ⟨topic, false, none, none,
      some (if status == 404 then ("Topic not found on Wikipedia (HTTP 404).").data
            else ("Wikipedia API returned error status ").data
              ++ (toString status).data ++ (".").data)⟩
  | .noResponse =>
    ⟨topic, false, none, none, some (("No response received from Wikipedia API.").data)⟩
  | .otherFailure =>
    ⟨topic, false, none, none, some (("Network or unknown API error.").data)⟩

/-- `ResearchAgent.run`: extract the topic and fetch it.  The fallback
topic retry is commented out in the source (inert), so the primary
result is returned unchanged.  `fetch` abstracts the summary lookup. -/
def researchRun (fetch : List Char → FetchResult) (query : List Char) : FetchResult :=
  fetch (extractTopic query)

/-- The `ADVANCED_WORDS` set of analysisAgent.js. -/
def ADVANCED_WORDS : List (List Char) :=
  (["cluster", "orchestration", "distributed", "concurrency", "containerization",
    "scalability", "stateless", "latency", "asynchronous", "pipeline",
    "microservices"]).map String.data

/-- The `BEGINNER_WORDS` set of analysisAgent.js. -/
def BEGINNER_WORDS : List (List Char) :=
  (["introduction", "basic", "getting started", "simple", "fundamental",
    "beginner"]).map String.data

/-- `inferDifficulty` from analysisAgent.js. -/
def inferDifficulty (summary : List Char) : List Char :=
  let lowerSummary := toLowerStr summary
  let advancedCount := (ADVANCED_WORDS.filter (fun w => includes lowerSummary w)).length
  let beginnerCount := (BEGINNER_WORDS.filter (fun w => includes lowerSummary w)).length
  if advancedCount < beginnerCount ∧ 1 ≤ beginnerCount then ("beginner").data
  else if 2 ≤ advancedCount then ("intermediate-advanced").data
  else ("intermediate").data

/-- Scanner state for the global sentence regex `/[^.!?]+[.!?]\s+/g`:
either building the `[^.!?]+` run (`acc`, reversed), or sitting after
the `[.!?]` terminator accumulating the `\s+` run (`wsAcc`, reversed)
with the run-plus-terminator part in `pending`. -/
inductive SentState where
  | scanning (acc : List Char)
  | afterTerm (pending wsAcc : List Char)

/-- A sentence-terminator character, the class `[.!?]`. -/
def isSentTerm (c : Char) : Bool :=
  c == '.' || c == '!' || c == '?'

/-- Left-to-right scan collecting every non-overlapping match of
`/[^.!?]+[.!?]\s+/g` (a failed attempt resumes right after the
terminator, matching the regex engine's leftmost retry semantics, since
retries starting inside the failed run reach the same terminator). -/
def sentAux : List Char → SentState → List (List Char)
  | [], .scanning _ => []
  | [], .afterTerm pending wsAcc =>
    if wsAcc.isEmpty then [] else [pending ++ wsAcc.reverse]
  | c :: cs, .scanning acc =>
    if isSentTerm c then
      if acc.isEmpty then sentAux cs (.scanning [])
      else sentAux cs (.afterTerm (acc.reverse ++ [c]) [])
    else sentAux cs (.scanning (c :: acc))
  | c :: cs, .afterTerm pending wsAcc =>
    if jsWs c then sentAux cs (.afterTerm pending (c :: wsAcc))
    else
      let restState : SentState := if isSentTerm c then .scanning [] else .scanning [c]
      if wsAcc.isEmpty then sentAux cs restState
      else (pending ++ wsAcc.reverse) :: sentAux cs restState

/-- `summary.match(/[^.!?]+[.!?]\s+/g) || [summary]`. -/
def sentences (s : List Char) : List (List Char) :=
  match sentAux s (.scanning []) with
  | [] => [s]
  | m => m

/-- `extractKeyPoints` from analysisAgent.js. -/
def extractKeyPoints (s : List Char) (maxPoints : Nat) : List (List Char) :=
  if s.isEmpty then []
  else (((sentences s).map trim).filter (fun p => decide (20 < p.length))).take maxPoints

/-- The analysis result (`AnalysisResult` of the spec). -/
structure AnalysisResult where
  hasContent : Bool
  difficulty : List Char
  keyPoints : List (List Char)
  advisory : List Char
deriving DecidableEq

/-- The no-content analysis result returned when there is nothing to analyze. -/
def noContentAnalysis : AnalysisResult :=
  ⟨false, ("unknown").data, [], ("No research content was found to analyze.").data⟩

/-- JS truthiness of a nullable string: `null`/`undefined` and `""` are falsy. -/
def jsTruthy : Option (List Char) → Bool
  | none => false
  | some s => !s.isEmpty

/-- `AnalysisAgent.run` from analysisAgent.js. -/
def analysisRun (r : FetchResult) : AnalysisResult :=
  if !r.ok || !jsTruthy r.summary then noContentAnalysis
  else
    let summary := r.summary.getD []
    let keyPoints := extractKeyPoints summary 5
    let finalPoints := if keyPoints.isEmpty && !summary.isEmpty then [summary] else keyPoints
    ⟨true, inferDifficulty summary, finalPoints,
      ("These points are based on an initial Wikipedia summary; always cross-check for critical or specific decisions.").data⟩

/-- `classifyIntent` from taskAgent.js. -/
def classifyIntent (query : List Char) (hasContent : Bool) : List Char :=
  if !hasContent then ("no-content").data
  else
    let lowerQuery := toLowerStr query
    if includes lowerQuery (("how to").data) || includes lowerQuery (("how do i").data) ||
        includes lowerQuery (("get started").data) ||
        includes lowerQuery (("for beginners").data) ||
        includes lowerQuery (("learn").data) then ("getting-started").data
    else if includes lowerQuery (("compare").data) ||
        includes lowerQuery ((" vs ").data) then ("comparison").data
    else ("overview").data

/-- Template interpolation of a nullable string (`null` prints as "null"). -/
def jsTemplateOpt : Option (List Char) → List Char
  | some s => s
  | none => ("null").data

/-- `generateAnswer` from taskAgent.js. -/
def generateAnswer (research : FetchResult) (analysis : AnalysisResult)
    (mode : List Char) : List Char :=
  let topic := research.topic
  let url := jsTemplateOpt research.url
  let difficultyText := capitalize analysis.difficulty
  let header := ("## 📚 ").data ++ topic ++ ("\n\n").data
  let body :=
    if mode = ("getting-started").data then
      ("**Presentation Mode: GETTING STARTED**\n\n").data ++
      ("Welcome! The topic of **").data ++ topic ++
      ("** has been identified with a complexity level of: **").data ++ difficultyText ++
      ("**.\n\n").data ++
      ("To start your learning journey, focus on the fundamentals outlined below:\n\n").data ++
      (analysis.keyPoints.map (fun point => ("- **").data ++ point ++ ("**\n").data)).flatten ++
      ("\n---\n\n").data ++
      ("### 💡 Suggested Next Steps\n").data ++
      ("* **Read the Official Docs:** Start with the main documentation page linked below.\n").data ++
      ("* **Try a Simple Tutorial:** Search for a \"Hello World\" or equivalent first project.\n").data ++
      ("* **Understand Core Concepts:** Ensure you grasp the basic principles (e.g., if it\x27s a tech topic, what is its primary problem domain?).\n\n").data
    else if mode = ("comparison").data then
      ("**Presentation Mode: COMPARISON**\n\n").data ++
      ("Here is an **Overview** of **").data ++ topic ++
      ("** to help you start your comparison (Difficulty: **").data ++ difficultyText ++
      ("**):\n\n").data ++
      (analysis.keyPoints.map (fun point => ("* ").data ++ point ++ ("\n").data)).flatten ++
      ("\n---\n\n").data ++
      ("For a detailed comparison, you\x27ll need to research its key alternatives and competitors. The points above provide its core foundation.\n\n").data
    else
      ("**Presentation Mode: OVERVIEW**\n\n").data ++
      ("Here\x27s a high-level overview of **").data ++ topic ++
      ("** (Difficulty: **").data ++ difficultyText ++ ("**):\n\n").data ++
      (analysis.keyPoints.map (fun point => ("* ").data ++ point ++ ("\n").data)).flatten
  let footer :=
    ("\n---\n").data ++
    ("**Source URL:** [Wikipedia: ").data ++ topic ++ ("](").data ++ url ++ (")\n").data ++
    ("**Advisory:** *").data ++ analysis.advisory ++ ("*\n").data
  header ++ body ++ footer

/-- The no-content failure answer assembled in `TaskAgent.run` (the
twelve lines joined by `\n`). -/
def noContentAnswer (query topicsTried reason : List Char) : List Char :=
  ("## ❌ No Content Found\n\nThe agent pipeline could not build an answer from Wikipedia for your question.\n\nQuery: ").data
  ++ query ++ ("\nTopics tried: ").data ++ topicsTried ++ ("\nReason: ").data ++ reason ++
  ("\n\nSuggestions:\n- Try using a broader or simpler topic (remove prices, dates, or very local details).\n- Check spelling for names or technical terms.\n- If your question is about a very specific product or version, try asking about the general concept instead.").data

/-- The task result: presentation mode plus final answer text. -/
structure TaskResult where
  mode : List Char
  finalAnswer : List Char
deriving DecidableEq

/-- `TaskAgent.run` from taskAgent.js.  `triedTopics`/`errorSummary` are
never set on a `FetchResult`, so those reads are falsy. -/
def taskRun (query : List Char) (researchResult : FetchResult)
    (analysisResult : AnalysisResult) : TaskResult :=
  let mode := classifyIntent query analysisResult.hasContent
  if mode = ("no-content").data then
    let topicsTried :=
      if researchResult.topic.isEmpty then ("No candidate topics were generated").data
      else researchResult.topic
    let reason :=
      match researchResult.error with
      | some e =>
        if e.isEmpty then ("No suitable Wikipedia article was found for this query.").data
        else e
      | none => ("No suitable Wikipedia article was found for this query.").data
    ⟨mode, noContentAnswer query topicsTried reason⟩
  else ⟨mode, generateAnswer researchResult analysisResult mode⟩

/-- Stage exceptions are modelled with `Except`; the error payload is a
message string. -/
abbrev JsError := List Char

/-- The aggregate response of one orchestration (`PipelineResponse`).
Fields absent from a given JS exit shape are modelled as `none`
(`query`/`timestamp` on the failure shapes) or `false` (`error` on the
success shape). -/
structure PipelineResponse where
  error : Bool
  errorMessage : Option (List Char)
  query : Option (List Char)
  timestamp : Option (List Char)
  research : Option FetchResult
  analysis : Option AnalysisResult
  taskMode : List Char
  finalAnswer : List Char
deriving DecidableEq

/-- The default analysis substituted when the analysis stage throws. -/
def defaultAnalysis : AnalysisResult :=
  ⟨false, ("unknown").data, [], ("Analysis failed unexpectedly.").data⟩

/-- Final answer of the research-failure exit of the coordinator. -/
def researchFailureAnswer (query : List Char) : List Char :=
  ("No Content Found\n\nThe research agent encountered an unexpected error while processing your query: \"").data
  ++ query ++ ("\".").data

/-- Final answer of the task-failure exit of the coordinator. -/
def taskFailureAnswer (query : List Char) : List Char :=
  ("An internal error prevented generating a final answer for the query: \"").data
  ++ query ++ ("\".").data

/-- `CoordinatorAgent.orchestrate` from coordinator.js, parametrized by
the three stage functions (each may throw, modelled by `Except`); the
`try`/`catch` blocks become matches on the stage outcomes.  The
timestamp (`new Date().toISOString()`) is an input. -/
def orchestrate (researchRes : Except JsError FetchResult)
    (analysisFn : FetchResult → Except JsError AnalysisResult)
    (taskFn : List Char → FetchResult → AnalysisResult → Except JsError TaskResult)
    (query timestamp : List Char) : PipelineResponse :=
  match researchRes with
  | .error _ =>
    ⟨true, some (("Research step failed unexpectedly.").data), none, none, none, none,
      ("no-content").data, researchFailureAnswer query⟩
  | .ok researchResult =>
    let analysisResult :=
      match analysisFn researchResult with
      | .error _ => defaultAnalysis
      | .ok a => a
    match taskFn query researchResult analysisResult with
    | .error _ =>
      ⟨true, some (("Task planning failed unexpectedly.").data), none, none,
        some researchResult, some analysisResult, ("no-content").data,
        taskFailureAnswer query⟩
    | .ok taskResult =>
      ⟨false, none, some query, some timestamp, some researchResult,
        some analysisResult, taskResult.mode, taskResult.finalAnswer⟩

/-- Shape invariant of every coordinator exit: failure shapes carry an
error message, no-content mode and a non-empty answer; the success shape
carries query, timestamp and both stage results. -/
def WellFormedResponse (r : PipelineResponse) : Prop :=
  (r.error = true →
    r.errorMessage.isSome ∧ r.taskMode = ("no-content").data ∧ r.finalAnswer ≠ []) ∧
  (r.error = false →
    r.query.isSome ∧ r.timestamp.isSome ∧ r.research.isSome ∧ r.analysis.isSome)

/-- The composed happy-path pipeline: the real agents wired through the
coordinator, with the summary lookup stubbed by `fetch`.  None of the
real agent functions throw, so each stage is wrapped in `Except.ok`. -/
def pipeline (fetch : List Char → FetchResult) (query ts : List Char) : PipelineResponse :=
  orchestrate (Except.ok (researchRun fetch query))
    (fun r => Except.ok (analysisRun r))
    (fun q r a => Except.ok (taskRun q r a))
    query ts

/-- Stubbed successful fetch result for the end-to-end scenario: a
three-sentence summary containing none of the advanced or beginner
vocabulary. -/
def adaSummary : List Char :=
  ("Ada Lovelace was an English mathematician and writer chiefly known for her work on the analytical engine. She was the first to recognise that the machine had applications beyond pure calculation. Her notes contain what many regard as the first computer program ever published. ").data

/-- Canonical page URL of the stubbed fetch result. -/
def adaUrl : List Char :=
  ("https://en.wikipedia.org/wiki/Ada_Lovelace").data

/-- The stubbed successful `FetchResult` for the end-to-end scenario. -/
def adaStub : FetchResult :=
  ⟨("Ada Lovelace").data, true, some adaSummary, some adaUrl, none⟩

/-- The full pipeline response for the query "who is Ada Lovelace" with
the stubbed fetch. -/
def adaResponse : PipelineResponse :=
  pipeline (fun _ => adaStub) (("who is Ada Lovelace").data)
    (("2024-01-01T00:00:00.000Z").data)

theorem mem_dropWhile_of_neg {p : α → Bool} {c : α} {l : List α}
    (hc : c ∈ l) (hpc : p c = false) : c ∈ l.dropWhile p := by
  induction l with
  | nil => simp at hc
  | cons x xs ih =>
    rw [List.dropWhile_cons]
    rcases List.mem_cons.mp hc with rfl | hmem
    · simp [hpc]
    · by_cases hx : p x
      · simpa [hx] using ih hmem
      · simp only [hx]
        exact List.mem_cons_of_mem _ hmem

theorem dropWhile_dropWhile (p : α → Bool) (l : List α) :
    (l.dropWhile p).dropWhile p = l.dropWhile p := by
  induction l with
  | nil => rfl
  | cons x xs ih =>
    rw [List.dropWhile_cons]
    by_cases hx : p x
    · simpa [hx] using ih
    · simp [List.dropWhile_cons, hx]

theorem dropWhile_eq_self_of_head? {p : α → Bool} {l : List α}
    (h : ∀ x, l.head? = some x → p x = false) : l.dropWhile p = l := by
  cases l with
  | nil => rfl
  | cons x xs => simp [List.dropWhile_cons, h x rfl]

theorem mem_trim {c : Char} {s : List Char} (hc : c ∈ s) (hws : jsWs c = false) :
    c ∈ trim s := by
  unfold trim
  have h1 : c ∈ s.dropWhile jsWs := mem_dropWhile_of_neg hc hws
  have h2 : c ∈ (s.dropWhile jsWs).reverse := List.mem_reverse.mpr h1
  have h3 : c ∈ (s.dropWhile jsWs).reverse.dropWhile jsWs := mem_dropWhile_of_neg h2 hws
  exact List.mem_reverse.mpr h3

theorem trim_idem (s : List Char) : trim (trim s) = trim s := by
  unfold trim
  set a := s.dropWhile jsWs with ha
  set b := a.reverse.dropWhile jsWs with hb
  have hbb : b.dropWhile jsWs = b := by rw [hb]; exact dropWhile_dropWhile _ _
  cases hcb : b with
  | nil => simp [hcb]
  | cons y ys =>
    have hbne : b ≠ [] := by rw [hcb]; exact List.cons_ne_nil _ _
    have hsuf : b <:+ a.reverse := by rw [hb]; exact List.dropWhile_suffix _
    obtain ⟨pre, hpre⟩ := hsuf
    have hlast : b.getLast? = a.head? := by
      rw [← List.getLast?_reverse a, ← hpre]
      exact (List.getLast?_append_of_ne_nil pre hbne).symm
    have hgood : ∀ x, b.reverse.head? = some x → jsWs x = false := by
      intro x hx
      rw [List.head?_reverse, hlast] at hx
      have := List.head?_dropWhile_not jsWs s
      rw [← ha] at this
      rw [hx] at this
      exact this
    have h1 : b.reverse.dropWhile jsWs = b.reverse := dropWhile_eq_self_of_head? hgood
    rw [← hcb, h1, List.reverse_reverse, hbb]

theorem wordsAux_ne_nil : ∀ (s acc t : List Char), t ∈ wordsAux s acc → t ≠ [] := by
  intro s
  induction s with
  | nil =>
    intro acc t ht
    simp only [wordsAux] at ht
    split at ht
    · simp at ht
    · rename_i hacc
      rcases List.mem_singleton.mp ht with rfl
      simpa [List.isEmpty_iff] using hacc
  | cons x xs ih =>
    intro acc t ht
    simp only [wordsAux] at ht
    split at ht
    · split at ht
      · exact ih [] t ht
      · rename_i hacc
        rcases List.mem_cons.mp ht with rfl | hmem
        · simpa [List.isEmpty_iff] using hacc
        · exact ih [] t hmem
    · exact ih (x :: acc) t ht

theorem wordsAux_mem_chars :
    ∀ (s acc t : List Char), t ∈ wordsAux s acc → ∀ c ∈ t, c ∈ s ∨ c ∈ acc := by
  intro s
  induction s with
  | nil =>
    intro acc t ht c hc
    simp only [wordsAux] at ht
    split at ht
    · simp at ht
    · rcases List.mem_singleton.mp ht with rfl
      exact Or.inr (List.mem_reverse.mp hc)
  | cons x xs ih =>
    intro acc t ht c hc
    simp only [wordsAux] at ht
    split at ht
    · split at ht
      · rcases ih [] t ht c hc with h | h
        · exact Or.inl (List.mem_cons_of_mem _ h)
        · simp at h
      · rcases List.mem_cons.mp ht with rfl | hmem
        · exact Or.inr (List.mem_reverse.mp hc)
        · rcases ih [] t hmem c hc with h | h
          · exact Or.inl (List.mem_cons_of_mem _ h)
          · simp at h
    · rcases ih (x :: acc) t ht c hc with h | h
      · exact Or.inl (List.mem_cons_of_mem _ h)
      · rcases List.mem_cons.mp h with rfl | hmem
        · exact Or.inl (List.mem_cons_self _ _)
        · exact Or.inr hmem

theorem wordsAux_not_ws :
    ∀ (s acc t : List Char), (∀ a ∈ acc, jsWs a = false) → t ∈ wordsAux s acc →
      ∀ c ∈ t, jsWs c = false := by
  intro s
  induction s with
  | nil =>
    intro acc t hacc ht c hc
    simp only [wordsAux] at ht
    split at ht
    · simp at ht
    · rcases List.mem_singleton.mp ht with rfl
      exact hacc c (List.mem_reverse.mp hc)
  | cons x xs ih =>
    intro acc t hacc ht c hc
    simp only [wordsAux] at ht
    split at ht
    · split at ht
      · exact ih [] t (by simp) ht c hc
      · rcases List.mem_cons.mp ht with rfl | hmem
        · exact hacc c (List.mem_reverse.mp hc)
        · exact ih [] t (by simp) hmem c hc
    · rename_i hx
      refine ih (x :: acc) t ?_ ht c hc
      intro a ha
      rcases List.mem_cons.mp ha with rfl | hmem
      · simpa using hx
      · exact hacc a hmem

theorem wordsAux_result_ne_nil :
    ∀ (s acc : List Char), ((∃ c ∈ s, jsWs c = false) ∨ acc ≠ []) →
      wordsAux s acc ≠ [] := by
  intro s
  induction s with
  | nil =>
    intro acc h
    rcases h with ⟨c, hc, _⟩ | hacc
    · simp at hc
    · simp only [wordsAux]
      rw [if_neg (by simpa [List.isEmpty_iff] using hacc)]
      exact List.cons_ne_nil _ _
  | cons x xs ih =>
    intro acc h
    simp only [wordsAux]
    split
    · rename_i hx
      split
      · rename_i hacc
        refine ih [] (Or.inl ?_)
        rcases h with ⟨c, hc, hcws⟩ | hacc2
        · rcases List.mem_cons.mp hc with rfl | hmem
          · rw [hx] at hcws; cases hcws
          · exact ⟨c, hmem, hcws⟩
        · exact absurd (List.isEmpty_iff.mp (by simpa using hacc)) hacc2
      · exact List.cons_ne_nil _ _
    · exact ih (x :: acc) (Or.inr (List.cons_ne_nil _ _))

theorem words_ne_nil {s : List Char} (h : ∃ c ∈ s, jsWs c = false) :
    words s ≠ [] :=
  wordsAux_result_ne_nil s [] (Or.inl h)

theorem mem_words_ne_nil {s t : List Char} (h : t ∈ words s) : t ≠ [] :=
  wordsAux_ne_nil s [] t h

theorem mem_words_chars {s t : List Char} (h : t ∈ words s) :
    ∀ c ∈ t, c ∈ s ∧ jsWs c = false := by
  intro c hc
  refine ⟨?_, ?_⟩
  · rcases wordsAux_mem_chars s [] t h c hc with h1 | h1
    · exact h1
    · simp at h1
  · exact wordsAux_not_ws s [] t (by simp) h c hc

theorem mem_joinSep {sep : Char} :
    ∀ {ls : List (List Char)} {c : Char}, c ∈ joinSep sep ls →
      c = sep ∨ ∃ t ∈ ls, c ∈ t := by
  intro ls
  induction ls with
  | nil => intro c hc; simp [joinSep] at hc
  | cons w ws ih =>
    intro c hc
    cases ws with
    | nil =>
      simp only [joinSep] at hc
      exact Or.inr ⟨w, List.mem_singleton.mpr rfl, hc⟩
    | cons w2 ws2 =>
      have hj : joinSep sep (w :: w2 :: ws2) = w ++ sep :: joinSep sep (w2 :: ws2) := rfl
      rw [hj] at hc
      rcases List.mem_append.mp hc with h | h
      · exact Or.inr ⟨w, List.mem_cons_self _ _, h⟩
      · rcases List.mem_cons.mp h with rfl | h2
        · exact Or.inl rfl
        · rcases ih h2 with h3 | ⟨t, ht, hct⟩
          · exact Or.inl h3
          · exact Or.inr ⟨t, List.mem_cons_of_mem _ ht, hct⟩

theorem mem_joinSep_of {sep : Char} :
    ∀ {ls : List (List Char)} {t : List Char} {c : Char}, t ∈ ls → c ∈ t →
      c ∈ joinSep sep ls := by
  intro ls
  induction ls with
  | nil => intro t c ht _; simp at ht
  | cons w ws ih =>
    intro t c ht hc
    cases ws with
    | nil =>
      rcases List.mem_singleton.mp ht with rfl
      simpa [joinSep] using hc
    | cons w2 ws2 =>
      have hj : joinSep sep (w :: w2 :: ws2) = w ++ sep :: joinSep sep (w2 :: ws2) := rfl
      rw [hj]
      rcases List.mem_cons.mp ht with rfl | hmem
      · exact List.mem_append.mpr (Or.inl hc)
      · exact List.mem_append.mpr (Or.inr (List.mem_cons_of_mem _ (ih hmem hc)))

theorem joinSep_ne_nil {sep : Char} {w : List Char} {ws : List (List Char)}
    (hw : w ≠ []) : joinSep sep (w :: ws) ≠ [] := by
  cases ws with
  | nil => simpa [joinSep] using hw
  | cons w2 ws2 =>
    have hj : joinSep sep (w :: w2 :: ws2) = w ++ sep :: joinSep sep (w2 :: ws2) := rfl
    rw [hj]
    simp

theorem ofNat_sub32_good :
    ∀ m : Nat, m < 123 → 97 ≤ m →
      jsWs (Char.ofNat (m - 32)) = false ∧ Char.ofNat (m - 32) ≠ '?' := by decide

theorem toUpper_good {c : Char} (hws : jsWs c = false) (hq : c ≠ '?') :
    jsWs c.toUpper = false ∧ c.toUpper ≠ '?' := by
  have hdef : c.toUpper =
      if c.toNat ≥ 97 ∧ c.toNat ≤ 122 then Char.ofNat (c.toNat - 32) else c := rfl
  rw [hdef]
  split
  · rename_i h
    exact ofNat_sub32_good c.toNat (Nat.lt_succ_of_le h.2) h.1
  · exact ⟨hws, hq⟩

theorem normalizeTitle_chars {s : List Char} :
    ∀ c ∈ normalizeTitle s, jsWs c = false ∧ c ≠ '?' := by
  intro c hc
  unfold normalizeTitle at hc
  rcases mem_joinSep hc with rfl | ⟨t, ht, hct⟩
  · exact ⟨by decide, by decide⟩
  · rcases List.mem_map.mp ht with ⟨w, hw, rfl⟩
    have hgoodw : ∀ a ∈ w, jsWs a = false ∧ a ≠ '?' := by
      intro a ha
      have h1 := mem_words_chars hw a ha
      refine ⟨h1.2, ?_⟩
      have h2 := List.mem_filter.mp h1.1
      intro hqe
      rw [hqe] at h2
      simp at h2
    cases w with
    | nil => simp [capitalize] at hct
    | cons d ds =>
      rcases List.mem_cons.mp hct with rfl | hmem
      · have hd := hgoodw d (List.mem_cons_self _ _)
        exact toUpper_good hd.1 hd.2
      · exact hgoodw c (List.mem_cons_of_mem _ hmem)

theorem normalizeTitle_ne_nil {s : List Char}
    (h : ∃ c ∈ s, jsWs c = false ∧ c ≠ '?') : normalizeTitle s ≠ [] := by
  obtain ⟨c, hcs, hws, hq⟩ := h
  have h1 : c ∈ trim s := mem_trim hcs hws
  have h2 : c ∈ removeQ (trim s) := by
    refine List.mem_filter.mpr ⟨h1, ?_⟩
    simpa using hq
  have h3 : words (removeQ (trim s)) ≠ [] := words_ne_nil ⟨c, h2, hws⟩
  unfold normalizeTitle
  cases hw : words (removeQ (trim s)) with
  | nil => exact absurd hw h3
  | cons w rest =>
    have hwne : w ≠ [] := mem_words_ne_nil (hw ▸ List.mem_cons_self _ _)
    rw [List.map_cons]
    refine joinSep_ne_nil ?_
    cases w with
    | nil => exact absurd rfl hwne
    | cons d ds => simp [capitalize]

theorem patKey_eq_normalizeTitle (raw : List Char) :
    ∃ p, patKey raw = normalizeTitle p :=
  ⟨_, rfl⟩

theorem patResult_some {raw r : List Char} (h : patResult raw = some r) :
    (∃ p, r = normalizeTitle p) ∧ 3 ≤ r.length := by
  unfold patResult at h
  split at h
  · cases h
  · split at h
    · rename_i h3
      cases h
      exact ⟨patKey_eq_normalizeTitle raw, h3⟩
    · cases h

theorem patternPhase_some {s r : List Char} (h : patternPhase s = some r) :
    (∃ p, r = normalizeTitle p) ∧ 3 ≤ r.length := by
  unfold patternPhase at h
  cases h1 : (pattern1 s).bind patResult with
  | some r1 =>
    rw [h1] at h
    cases h
    obtain ⟨_, _, hp⟩ := Option.bind_eq_some.mp h1
    exact patResult_some hp
  | none =>
    rw [h1] at h
    cases h2 : (pattern2 s).bind patResult with
    | some r2 =>
      rw [h2] at h
      cases h
      obtain ⟨_, _, hp⟩ := Option.bind_eq_some.mp h2
      exact patResult_some hp
    | none =>
      rw [h2] at h
      obtain ⟨_, _, hp⟩ := Option.bind_eq_some.mp h
      exact patResult_some hp

theorem mem_kwCandidate {lower t : List Char} (h : t ∈ kwCandidate lower) :
    t ∈ words (stripPunct lower) := by
  unfold kwCandidate at h
  dsimp only at h
  have hsub : ∀ {u : List (List Char)},
      t ∈ (if 2 ≤ u.length then lastN 2 u else u) → t ∈ u := by
    intro u hu
    split at hu
    · exact List.drop_subset _ _ hu
    · exact hu
  have h1 := hsub h
  split at h1
  · exact (List.mem_filter.mp h1).1
  · exact (List.mem_filter.mp (List.mem_filter.mp h1).1).1

theorem isEmpty_false_of_ne_nil {α : Type} {l : List α} (h : l ≠ []) : l.isEmpty = false := by
  cases l with
  | nil => exact absurd rfl h
  | cons x xs => rfl

theorem extract_eq_keywordPhase {q : List Char} (hq : trim q ≠ [])
    (hp : patternPhase (trim q) = none) :
    extractTopic q = keywordPhase (toLowerStr (trim q)) q := by
  have hqne : q ≠ [] := by
    intro h
    rw [h] at hq
    exact hq rfl
  unfold extractTopic
  simp only [isEmpty_false_of_ne_nil hqne, isEmpty_false_of_ne_nil hq,
    Bool.false_eq_true, if_false, hp]

theorem extract_eq_of_patternPhase {q r : List Char} (hq : trim q ≠ [])
    (hp : patternPhase (trim q) = some r) : extractTopic q = r := by
  have hqne : q ≠ [] := by
    intro h
    rw [h] at hq
    exact hq rfl
  unfold extractTopic
  simp only [isEmpty_false_of_ne_nil hqne, isEmpty_false_of_ne_nil hq,
    Bool.false_eq_true, if_false, hp]

theorem keywordPhase_chars {lower orig : List Char} :
    ∀ c ∈ keywordPhase lower orig, jsWs c = false ∧ c ≠ '?' := by
  unfold keywordPhase
  dsimp only
  split
  · exact normalizeTitle_chars
  · exact normalizeTitle_chars

theorem keywordPhase_ne_nil {lower orig : List Char}
    (h : ∃ c ∈ orig, jsWs c = false ∧ c ≠ '?') : keywordPhase lower orig ≠ [] := by
  unfold keywordPhase
  dsimp only
  split
  · rename_i h3
    apply normalizeTitle_ne_nil
    cases hc1 : kwCandidate lower with
    | nil => rw [hc1] at h3; simp [joinSep] at h3
    | cons w rest =>
      have hwmem : w ∈ kwCandidate lower := hc1 ▸ List.mem_cons_self _ _
      have hw : w ∈ words (stripPunct lower) := mem_kwCandidate hwmem
      have hwne : w ≠ [] := mem_words_ne_nil hw
      obtain ⟨d, hd⟩ : ∃ d, d ∈ w := by
        cases w with
        | nil => exact absurd rfl hwne
        | cons d ds => exact ⟨d, List.mem_cons_self _ _⟩
      have hgood := mem_words_chars hw d hd
      have hmemf := (List.mem_filter.mp hgood.1).2
      have hwc : wordChar d = true := by
        rcases Bool.or_eq_true_iff.mp hmemf with hb | hb
        · exact hb
        · rw [hgood.2] at hb; cases hb
      have hdq : d ≠ '?' := by
        intro hde
        rw [hde] at hwc
        exact absurd hwc (by decide)
      exact ⟨d, mem_joinSep_of (hc1 ▸ List.mem_cons_self w rest) hd, hgood.2, hdq⟩
  · exact normalizeTitle_ne_nil h

/-- Claim C1 (amended): for every query that is non-empty after trimming,
`extractTopic` returns a string containing no whitespace and no `?`; the
result is moreover non-empty whenever the query contains at least one
character that is neither whitespace nor `?` (the counterexample below
shows non-emptiness fails for queries made only of `?` characters). -/
theorem extract_no_ws_no_q (q : List Char) (hq : trim q ≠ []) :
    (∀ c ∈ extractTopic q, jsWs c = false ∧ c ≠ '?') ∧
    ((∃ c ∈ q, jsWs c = false ∧ c ≠ '?') → extractTopic q ≠ []) := by
  cases hpp : patternPhase (trim q) with
  | some r =>
    rw [extract_eq_of_patternPhase hq hpp]
    obtain ⟨⟨p, rfl⟩, hlen⟩ := patternPhase_some hpp
    refine ⟨normalizeTitle_chars, fun _ hnil => ?_⟩
    rw [hnil] at hlen
    simp at hlen
  | none =>
    rw [extract_eq_keywordPhase hq hpp]
    exact ⟨keywordPhase_chars, keywordPhase_ne_nil⟩

/-- Claim C1 witness: a concrete non-empty query on which the amended
claim's hypotheses hold and yield a non-empty result. -/
theorem extract_no_ws_no_q_witness :
    (∀ c ∈ extractTopic (("hello world").data), jsWs c = false ∧ c ≠ '?') ∧
    extractTopic (("hello world").data) ≠ [] :=
  ⟨(extract_no_ws_no_q (("hello world").data) (by decide)).1,
    (extract_no_ws_no_q (("hello world").data) (by decide)).2 (by decide)⟩

/-- Claim C1 counterexample: the query "???" is non-empty and not
whitespace-only, yet `extractTopic` returns the empty string, refuting
"returns a non-empty string" as stated. -/
theorem extract_empty_on_question_marks :
    trim (("???").data) ≠ [] ∧ extractTopic (("???").data) = [] := by decide

/-- Claim C7 (amended): when a pattern matches but its normalized key has
fewer than 3 characters (so the pattern loop yields nothing), control
falls through to the keyword fallback over the whole query; the
normalization of the original unmodified query is used only when the
keyword extraction is itself shorter than 3 characters.  The pattern
match does not win over the keyword fallback. -/
theorem extract_pattern_short_key (q : List Char) (hq : trim q ≠ [])
    (_hm : (pattern1 (trim q)).isSome = true ∨ (pattern2 (trim q)).isSome = true ∨
      (pattern3 (trim q)).isSome = true)
    (hp : patternPhase (trim q) = none) :
    extractTopic q = keywordPhase (toLowerStr (trim q)) q ∧
    ((joinSep '_' (kwCandidate (toLowerStr (trim q)))).length < 3 →
      extractTopic q = normalizeTitle q) := by
  refine ⟨extract_eq_keywordPhase hq hp, fun hshort => ?_⟩
  rw [extract_eq_keywordPhase hq hp]
  unfold keywordPhase
  dsimp only
  rw [if_neg (by omega)]

/-- Claim C7 witness: the amended claim applied at the concrete query
"who is x", whose pattern subject "x" normalizes to a 1-character key. -/
theorem extract_pattern_short_key_witness :
    extractTopic (("who is x").data) =
      keywordPhase (toLowerStr (trim (("who is x").data))) (("who is x").data) :=
  (extract_pattern_short_key (("who is x").data) (by decide)
    (Or.inl (by decide)) (by decide)).1

/-- Claim C7 counterexample: on "who is x" the pattern path produces the
subject "x" whose normalized key "X" is shorter than 3 characters, and
`extractTopic` returns the keyword-fallback result "Who_X", not the
normalization "Who_Is_X" of the original query as the claim states. -/
theorem extract_pattern_short_key_cex :
    pattern1 (trim (("who is x").data)) = some (("x").data) ∧
    patResult (("x").data) = none ∧
    extractTopic (("who is x").data) = ("Who_X").data ∧
    normalizeTitle (("who is x").data) = ("Who_Is_X").data ∧
    extractTopic (("who is x").data) ≠ normalizeTitle (("who is x").data) := by
  decide

/-- Claim C8: the two documented example extractions — filler and price
words stripped, last-two-token recency bias, title-cased and joined with
underscores. -/
theorem extract_examples :
    extractTopic (("who is mahatma gandhi").data) = ("Mahatma_Gandhi").data ∧
    extractTopic (("what is the cost of a new elantra").data) = ("Elantra").data := by
  decide

/-- Claim C5: `classifyIntent` is a pure function applying its rules in
priority order — no content forces "no-content" regardless of the query;
otherwise the getting-started keyword set is checked first, then the
comparison keywords, then "overview" — together with the three
documented example classifications. -/
theorem classify_rules (q : List Char) :
    classifyIntent q false = ("no-content").data ∧
    ((includes (toLowerStr q) (("how to").data) ||
      includes (toLowerStr q) (("how do i").data) ||
      includes (toLowerStr q) (("get started").data) ||
      includes (toLowerStr q) (("for beginners").data) ||
      includes (toLowerStr q) (("learn").data)) = true →
      classifyIntent q true = ("getting-started").data) ∧
    ((includes (toLowerStr q) (("how to").data) ||
      includes (toLowerStr q) (("how do i").data) ||
      includes (toLowerStr q) (("get started").data) ||
      includes (toLowerStr q) (("for beginners").data) ||
      includes (toLowerStr q) (("learn").data)) = false →
      (includes (toLowerStr q) (("compare").data) ||
       includes (toLowerStr q) ((" vs ").data)) = true →
      classifyIntent q true = ("comparison").data) ∧
    ((includes (toLowerStr q) (("how to").data) ||
      includes (toLowerStr q) (("how do i").data) ||
      includes (toLowerStr q) (("get started").data) ||
      includes (toLowerStr q) (("for beginners").data) ||
      includes (toLowerStr q) (("learn").data)) = false →
      (includes (toLowerStr q) (("compare").data) ||
       includes (toLowerStr q) ((" vs ").data)) = false →
      classifyIntent q true = ("overview").data) ∧
    classifyIntent (("how do I learn Kubernetes").data) true = ("getting-started").data ∧
    classifyIntent (("Python vs Go").data) true = ("comparison").data ∧
    classifyIntent (("tell me about Rome").data) true = ("overview").data := by
  refine ⟨rfl, ?_, ?_, ?_, by decide, by decide, by decide⟩
  · intro h1
    simp [classifyIntent, h1]
  · intro h1 h2
    simp [classifyIntent, h1, h2]
  · intro h1 h2
    simp [classifyIntent, h1, h2]

/-- Claim C5 witness: the rule implications applied at a concrete query. -/
theorem classify_rules_witness :
    classifyIntent (("renaissance art").data) true = ("overview").data :=
  (classify_rules (("renaissance art").data)).2.2.2.1 (by decide) (by decide)

/-- Claim C4: whenever the fetch failed (`ok = false`) or the summary is
null or empty, the analyzer returns exactly the no-content result (with
its fixed advisory), and consequently every analysis result with
`hasContent = false` has difficulty "unknown" and empty key points. -/
theorem analyze_no_content (r : FetchResult) :
    ((r.ok = false ∨ r.summary = none ∨ r.summary = some []) →
      analysisRun r = noContentAnalysis) ∧
    ((analysisRun r).hasContent = false →
      (analysisRun r).difficulty = ("unknown").data ∧
      (analysisRun r).keyPoints = []) ∧
    noContentAnalysis =
      ⟨false, ("unknown").data, [], ("No research content was found to analyze.").data⟩ := by
  obtain ⟨topic, ok, summary, url, error⟩ := r
  refine ⟨?_, ?_, rfl⟩
  · intro h
    rcases h with h | h | h
    · cases h
      rfl
    · cases h
      cases ok <;> rfl
    · cases h
      cases ok <;> rfl
  · unfold analysisRun
    split
    · exact fun _ => ⟨rfl, rfl⟩
    · intro h
      simp at h

/-- Claim C4 witness: the no-content branch at a concrete failed fetch. -/
theorem analyze_no_content_witness :
    analysisRun ⟨("T").data, false, none, none, some (("boom").data)⟩ =
      noContentAnalysis :=
  (analyze_no_content _).1 (Or.inl rfl)

/-- Claim C10: for a successful fetch with a non-null, non-empty summary
the analyzer reports content and produces at least one key point (the
full-summary fallback guarantees non-emptiness). -/
theorem analyze_has_content (r : FetchResult) (s : List Char)
    (hok : r.ok = true) (hs : r.summary = some s) (hne : s ≠ []) :
    (analysisRun r).hasContent = true ∧ (analysisRun r).keyPoints ≠ [] := by
  unfold analysisRun
  rw [hok, hs]
  simp only [jsTruthy, isEmpty_false_of_ne_nil hne, Bool.not_true, Bool.not_false,
    Bool.false_or, Bool.false_eq_true, if_false, Option.getD_some]
  refine ⟨trivial, ?_⟩
  by_cases hk : (extractKeyPoints s 5).isEmpty
  · simp only [hk, isEmpty_false_of_ne_nil hne, Bool.not_false, Bool.and_true, if_true]
    exact List.cons_ne_nil _ _
  · simp only [Bool.not_eq_true] at hk
    simp only [hk, Bool.false_and, Bool.false_eq_true, if_false]
    intro hnil
    rw [hnil] at hk
    cases hk

/-- Claim C10 witness: a concrete successful fetch whose summary has no
sentence boundary at all still yields one key point. -/
theorem analyze_has_content_witness :
    (analysisRun ⟨("T").data, true, some (("tiny").data), some (("u").data), none⟩).hasContent
        = true ∧
    (analysisRun ⟨("T").data, true, some (("tiny").data), some (("u").data), none⟩).keyPoints
        ≠ [] :=
  analyze_has_content _ (("tiny").data) rfl rfl (by decide)

/-- Claim C6: for a successful fetch with a non-null, non-empty summary,
the analyzer's key points are at most 5, each longer than 20 characters
after trimming, and an order-preserving selection (a sublist) of the
trimmed sentences of the summary — except in the fallback case where no
candidate survives filtering, in which the key points are exactly the
one-element list holding the full summary. -/
theorem analyze_keypoints (r : FetchResult) (s : List Char)
    (hok : r.ok = true) (hs : r.summary = some s) (hne : s ≠ []) :
    (extractKeyPoints s 5 = [] → (analysisRun r).keyPoints = [s]) ∧
    (extractKeyPoints s 5 ≠ [] →
      (analysisRun r).keyPoints.length ≤ 5 ∧
      (∀ p ∈ (analysisRun r).keyPoints, 20 < (trim p).length) ∧
      (analysisRun r).keyPoints.Sublist ((sentences s).map trim)) := by
  have hkp : (analysisRun r).keyPoints =
      if (extractKeyPoints s 5).isEmpty && !s.isEmpty then [s]
      else extractKeyPoints s 5 := by
    unfold analysisRun
    rw [hok, hs]
    simp only [jsTruthy, isEmpty_false_of_ne_nil hne, Bool.not_true, Bool.not_false,
      Bool.false_or, Bool.false_eq_true, if_false, Option.getD_some]
  have hdef : extractKeyPoints s 5 =
      (((sentences s).map trim).filter (fun p => decide (20 < p.length))).take 5 := by
    unfold extractKeyPoints
    simp only [isEmpty_false_of_ne_nil hne, Bool.false_eq_true, if_false]
  constructor
  · intro h0
    rw [hkp, h0]
    simp [isEmpty_false_of_ne_nil hne]
  · intro h1
    have hkne : (extractKeyPoints s 5).isEmpty = false := isEmpty_false_of_ne_nil h1
    rw [hkp]
    simp only [hkne, Bool.false_and, Bool.false_eq_true, if_false]
    refine ⟨?_, ?_, ?_⟩
    · rw [hdef]
      exact List.length_take_le _ _
    · intro p hp
      rw [hdef] at hp
      have hp2 := List.mem_of_mem_take hp
      have hp3 := List.mem_filter.mp hp2
      have hlen := of_decide_eq_true hp3.2
      obtain ⟨u, hu, rfl⟩ := List.mem_map.mp hp3.1
      rw [trim_idem]
      exact hlen
    · rw [hdef]
      exact (List.take_sublist _ _).trans (List.filter_sublist _)

/-- Claim C6 witness: the fallback case at a concrete summary whose only
sentence candidate is too short to survive the length filter. -/
theorem analyze_keypoints_witness :
    (analysisRun ⟨("T").data, true, some (("short one.  ").data), some (("u").data),
        none⟩).keyPoints = [("short one.  ").data] :=
  (analyze_keypoints _ (("short one.  ").data) rfl rfl (by decide)).1 (by decide)

/-- Claim C3: `fetchWikiSummary` is a total function of the call outcome
(never throws); every non-success outcome is captured into `ok = false`;
`ok = true` implies summary and url are set, and `ok = false` implies
summary and url are null and the error is a set, non-empty string. -/
theorem fetch_invariant (topic : List Char) (outcome : AxiosOutcome) :
    ((fetchWikiSummary topic outcome).ok = true →
      (fetchWikiSummary topic outcome).summary.isSome = true ∧
      (fetchWikiSummary topic outcome).url.isSome = true) ∧
    ((fetchWikiSummary topic outcome).ok = false →
      (fetchWikiSummary topic outcome).summary = none ∧
      (fetchWikiSummary topic outcome).url = none ∧
      ∃ e, (fetchWikiSummary topic outcome).error = some e ∧ e ≠ []) ∧
    ((∀ d, outcome ≠ AxiosOutcome.success d) →
      (fetchWikiSummary topic outcome).ok = false) := by
  cases outcome with
  | success d =>
    exact ⟨fun _ => ⟨rfl, rfl⟩, fun h => Bool.noConfusion h, fun h => absurd rfl (h d)⟩
  | httpError status =>
    refine ⟨fun h => Bool.noConfusion h, fun _ => ⟨rfl, rfl, ?_⟩, fun _ => rfl⟩
    refine ⟨_, rfl, ?_⟩
    split
    · decide
    · intro hnil
      have h1 := (List.append_eq_nil.mp hnil).1
      have h2 := (List.append_eq_nil.mp h1).1
      exact absurd h2 (by decide)
  | noResponse =>
    exact ⟨fun h => Bool.noConfusion h, fun _ => ⟨rfl, rfl, _, rfl, by decide⟩,
      fun _ => rfl⟩
  | otherFailure =>
    exact ⟨fun h => Bool.noConfusion h, fun _ => ⟨rfl, rfl, _, rfl, by decide⟩,
      fun _ => rfl⟩

/-- Claim C3 witness: both invariant directions at concrete outcomes. -/
theorem fetch_invariant_witness :
    (fetchWikiSummary (("X").data) AxiosOutcome.noResponse).summary = none ∧
    (fetchWikiSummary (("X").data)
      (AxiosOutcome.success ⟨("X").data, ("e").data, none, 1⟩)).summary.isSome = true :=
  ⟨((fetch_invariant (("X").data) AxiosOutcome.noResponse).2.1 rfl).1,
    ((fetch_invariant (("X").data)
      (AxiosOutcome.success ⟨("X").data, ("e").data, none, 1⟩)).1 rfl).1⟩

theorem wf_failure_shape {msg ans : List Char} {res : Option FetchResult}
    {ana : Option AnalysisResult} (hans : ans ≠ []) :
    WellFormedResponse ⟨true, some msg, none, none, res, ana, ("no-content").data, ans⟩ :=
  ⟨fun _ => ⟨rfl, rfl, hans⟩, fun h => Bool.noConfusion h⟩

theorem wf_success_shape {q ts m ans : List Char} {r : FetchResult} {a : AnalysisResult} :
    WellFormedResponse ⟨false, none, some q, some ts, some r, some a, m, ans⟩ :=
  ⟨fun h => Bool.noConfusion h, fun _ => ⟨rfl, rfl, rfl, rfl⟩⟩

theorem researchFailureAnswer_ne_nil (q : List Char) : researchFailureAnswer q ≠ [] := by
  unfold researchFailureAnswer
  exact List.append_ne_nil_of_left_ne_nil
    (List.append_ne_nil_of_left_ne_nil (by decide) _) _

theorem taskFailureAnswer_ne_nil (q : List Char) : taskFailureAnswer q ≠ [] := by
  unfold taskFailureAnswer
  exact List.append_ne_nil_of_left_ne_nil
    (List.append_ne_nil_of_left_ne_nil (by decide) _) _

/-- Claim C2: the orchestrator is a total function (never throws) whose
every exit is a single well-formed response; and when the analysis stage
throws, the pipeline does not abort — it behaves exactly as if the
analyzer had returned the default analysis result
`{hasContent := false, difficulty := "unknown", keyPoints := [],
advisory := "Analysis failed unexpectedly."}` and continues into the
planning stage. -/
theorem orchestrate_wellformed (rr : Except JsError FetchResult)
    (af : FetchResult → Except JsError AnalysisResult)
    (tf : List Char → FetchResult → AnalysisResult → Except JsError TaskResult)
    (q ts : List Char) :
    WellFormedResponse (orchestrate rr af tf q ts) ∧
    (∀ r e, rr = Except.ok r → af r = Except.error e →
      orchestrate rr af tf q ts =
        orchestrate rr (fun _ => Except.ok defaultAnalysis) tf q ts) ∧
    defaultAnalysis =
      ⟨false, ("unknown").data, [], ("Analysis failed unexpectedly.").data⟩ := by
  refine ⟨?_, ?_, rfl⟩
  · unfold orchestrate
    cases rr with
    | error e => exact wf_failure_shape (researchFailureAnswer_ne_nil q)
    | ok r =>
      cases haf : af r with
      | error e1 =>
        simp only [haf]
        cases htf : tf q r defaultAnalysis with
        | error e2 =>
          simp only [htf]
          exact wf_failure_shape (taskFailureAnswer_ne_nil q)
        | ok t =>
          simp only [htf]
          exact wf_success_shape
      | ok a =>
        simp only [haf]
        cases htf : tf q r a with
        | error e2 =>
          simp only [htf]
          exact wf_failure_shape (taskFailureAnswer_ne_nil q)
        | ok t =>
          simp only [htf]
          exact wf_success_shape
  · intro r e hrr haf
    cases hrr
    unfold orchestrate
    simp only [haf]

/-- Claim C2 witness: with a concrete throwing analyzer the orchestration
equals the orchestration with the analyzer replaced by the default. -/
theorem orchestrate_wellformed_witness :
    orchestrate (Except.ok adaStub) (fun _ => Except.error ([] : JsError))
        (fun q r a => Except.ok (taskRun q r a)) (("q").data) (("t").data) =
      orchestrate (Except.ok adaStub) (fun _ => Except.ok defaultAnalysis)
        (fun q r a => Except.ok (taskRun q r a)) (("q").data) (("t").data) :=
  (orchestrate_wellformed (Except.ok adaStub) (fun _ => Except.error ([] : JsError))
    (fun q r a => Except.ok (taskRun q r a)) (("q").data) (("t").data)).2.1
    adaStub [] rfl rfl

set_option maxRecDepth 8000 in
/-- Claim C9: end-to-end, the query "who is Ada Lovelace" with a stubbed
successful fetch whose three-sentence summary contains no advanced or
beginner vocabulary yields mode "overview", difficulty "intermediate",
exactly 3 key points, and a final answer containing the heading
"## 📚 Ada Lovelace" and the fetch result's URL. -/
theorem ada_end_to_end :
    adaResponse.taskMode = ("overview").data ∧
    adaResponse.analysis.map AnalysisResult.difficulty =
      some (("intermediate").data) ∧
    adaResponse.analysis.map (fun a => a.keyPoints.length) = some 3 ∧
    includes adaResponse.finalAnswer (("## 📚 Ada Lovelace").data) = true ∧
    includes adaResponse.finalAnswer adaUrl = true := by
  decide
